import Mathlib

/-!
Verification of the auto-folder-icon media pipeline.

Shallow embedding of the Python sources:
  src/utils/file_utils.py, src/utils/image_utils.py,
  src/core/scanner.py, src/core/icon_manager.py, src/core/thumbnail_embedder.py.

Strings are modelled as Lean `String`/`List Char` (the repository only feeds
ASCII filenames through these paths); Python regular-expression operations are
embedded as explicit recursive scanners with the same leftmost-match,
non-overlapping-substitution semantics that `re.search`/`re.sub` use on these
concrete patterns.  Filesystem and subprocess effects are modelled by explicit
state records, with the outcome of each external step (download, image write,
ffmpeg run) supplied as an oracle parameter.
-/

namespace AutoFolderIcon

/-! ### Character classes used by the Python code -/

/-- Python `\s` / `str.strip()` whitespace (ASCII range). -/
def pyWs (c : Char) : Bool :=
  c = ' ' || c = '\t' || c = '\n' || c = '\r' || c = '\x0b' || c = '\x0c'

/-- The character class `[<>:"/\\|?*]` in `get_safe_filename`. -/
def badFsChar (c : Char) : Bool :=
  c = '<' || c = '>' || c = ':' || c = '"' || c = '/' || c = '\\' ||
  c = '|' || c = '?' || c = '*'

/-- The strip set `'._'` of `get_safe_filename`. -/
def dotUnd (c : Char) : Bool :=
  c = '.' || c = '_'

/-- The character class `[\.\-_]` in `clean_title`. -/
def dotDashUnd (c : Char) : Bool :=
  c = '.' || c = '-' || c = '_'

/-- Python `\d` restricted to ASCII digits. -/
def isDigitCh (c : Char) : Bool :=
  '0' ≤ c && c ≤ '9'

/-- Python `\w` (word character), ASCII range. -/
def pyWordCh (c : Char) : Bool :=
  c.isAlpha || isDigitCh c || c = '_'

/-- Python `str.lower`, character-wise (ASCII). -/
def pyLowerStr (s : String) : String :=
  String.mk (s.data.map Char.toLower)

/-- `listStartsWith needle hay`: `hay` begins with `needle`. -/
def listStartsWith : List Char → List Char → Bool
  | [], _ => true
  | _ :: _, [] => false
  | a :: as, b :: bs => a = b && listStartsWith as bs

/-- Python `needle in hay` substring test. -/
def containsSub (needle : List Char) : List Char → Bool
  | [] => needle.isEmpty
  | c :: cs => listStartsWith needle (c :: cs) || containsSub needle cs

/-- `s.endswith(suf)`. -/
def strEndsWith (s suf : String) : Bool :=
  listStartsWith suf.data.reverse s.data.reverse

/-! ### Run-collapsing substitution and two-sided strip

`collapseRuns p rep b l` is `re.sub(p+, rep, l)`: every maximal run of
characters satisfying `p` is replaced by the single character `rep`.  The flag
`b` records whether the scanner is currently inside such a run. -/

def collapseRuns (p : Char → Bool) (rep : Char) : Bool → List Char → List Char
  | _, [] => []
  | inRun, c :: cs =>
    if p c then
      if inRun then collapseRuns p rep true cs
      else rep :: collapseRuns p rep true cs
    else c :: collapseRuns p rep false cs

/-- Drop the longest suffix of characters satisfying `p`. -/
def dropTrailing (p : Char → Bool) (l : List Char) : List Char :=
  (l.reverse.dropWhile p).reverse

/-- Python `str.strip(chars)` for the class `p`. -/
def stripBoth (p : Char → Bool) (l : List Char) : List Char :=
  dropTrailing p (l.dropWhile p)

/-! ### `get_safe_filename` (src/utils/file_utils.py, lines 274-293) -/

/-- One character of the first `re.sub` of `get_safe_filename`. -/
def safeSub (c : Char) : Char :=
  if badFsChar c then '_' else c

/-- Character-level core of `get_safe_filename`: replace unsafe characters by
`'_'`, collapse whitespace runs to `'_'`, strip leading/trailing `'.'`/`'_'`,
then truncate to 100 characters. -/
def safeFilenameChars (l : List Char) : List Char :=
  let s1 := l.map safeSub
  let s2 := collapseRuns pyWs '_' false s1
  let s3 := stripBoth dotUnd s2
  if s3.length > 100 then s3.take 100 else s3

/-- `get_safe_filename` from src/utils/file_utils.py. -/
def get_safe_filename (s : String) : String :=
  String.mk (safeFilenameChars s.data)

/-! ### `extract_year_from_filename` (src/utils/file_utils.py, lines 41-68) -/

/-- Numeric value of a four-digit group. -/
def yearVal (d1 d2 d3 d4 : Char) : Nat :=
  (d1.toNat - 48) * 1000 + (d2.toNat - 48) * 100 + (d3.toNat - 48) * 10 +
    (d4.toNat - 48)

/-- The sanity range `1900 <= year <= 2030` of the source. -/
def inYearRange (y : Nat) : Bool :=
  1900 ≤ y && y ≤ 2030

/-- Leftmost `re.search` of `open (\d{4}) close` where `po`/`pc` decide the
opening and closing delimiter characters. -/
def searchWrapped (po pc : Char → Bool) : List Char → Option Nat
  | o :: d1 :: d2 :: d3 :: d4 :: c :: rest =>
    if po o && isDigitCh d1 && isDigitCh d2 && isDigitCh d3 && isDigitCh d4 &&
        pc c then
      some (yearVal d1 d2 d3 d4)
    else searchWrapped po pc (d1 :: d2 :: d3 :: d4 :: c :: rest)
  | _ :: rest => searchWrapped po pc rest
  | [] => none

/-- Leftmost `re.search` of `\.(\d{4})$`. -/
def searchDotEnd : List Char → Option Nat
  | ['.', d1, d2, d3, d4] =>
    if isDigitCh d1 && isDigitCh d2 && isDigitCh d3 && isDigitCh d4 then
      some (yearVal d1 d2 d3 d4)
    else searchDotEnd [d1, d2, d3, d4]
  | _ :: rest => searchDotEnd rest
  | [] => none

/-- One step of the pattern loop: if the pattern produced a (leftmost) match,
the year is returned only when it passes the range check, otherwise the code
falls through to the next pattern. -/
def tryYearPattern (r : Option Nat) (next : Option Nat) : Option Nat :=
  match r with
  | some y => if inYearRange y then some y else next
  | none => next

/-- `extract_year_from_filename` from src/utils/file_utils.py. -/
def extract_year_from_filename (s : String) : Option Nat :=
  tryYearPattern (searchWrapped (· = '(') (· = ')') s.data)
    (tryYearPattern (searchWrapped (· = '[') (· = ']') s.data)
      (tryYearPattern (searchWrapped (· = '.') (· = '.') s.data)
        (tryYearPattern (searchWrapped pyWs pyWs s.data)
          (tryYearPattern (searchDotEnd s.data) none))))

/-- Variant of `searchWrapped` that skips out-of-range matches and keeps
scanning for a later in-range one (used only to state the spec's reading). -/
def searchWrappedInRange (po pc : Char → Bool) : List Char → Option Nat
  | o :: d1 :: d2 :: d3 :: d4 :: c :: rest =>
    if po o && isDigitCh d1 && isDigitCh d2 && isDigitCh d3 && isDigitCh d4 &&
        pc c && inYearRange (yearVal d1 d2 d3 d4) then
      some (yearVal d1 d2 d3 d4)
    else searchWrappedInRange po pc (d1 :: d2 :: d3 :: d4 :: c :: rest)
  | _ :: rest => searchWrappedInRange po pc rest
  | [] => none

/-- Variant of `searchDotEnd` that only accepts in-range values. -/
def searchDotEndInRange : List Char → Option Nat
  | ['.', d1, d2, d3, d4] =>
    if isDigitCh d1 && isDigitCh d2 && isDigitCh d3 && isDigitCh d4 &&
        inYearRange (yearVal d1 d2 d3 d4) then
      some (yearVal d1 d2 d3 d4)
    else searchDotEndInRange [d1, d2, d3, d4]
  | _ :: rest => searchDotEndInRange rest
  | [] => none

/-- Modelled from the spec: "accepting the first match, in the fixed pattern
order parenthesized, bracketed, dot-delimited, space-delimited, trailing,
whose value lies in [1900, 2030]" — every match of each pattern is examined,
not just the leftmost one. -/
def specFirstYearInRange (s : String) : Option Nat :=
  (searchWrappedInRange (· = '(') (· = ')') s.data).or
    ((searchWrappedInRange (· = '[') (· = ']') s.data).or
      ((searchWrappedInRange (· = '.') (· = '.') s.data).or
        ((searchWrappedInRange pyWs pyWs s.data).or
          (searchDotEndInRange s.data))))

/-! ### `clean_title` (src/utils/file_utils.py, lines 71-98) -/

/-- Opening characters of the class `[\(\[]`. -/
def isOpenBr (c : Char) : Bool :=
  c = '(' || c = '['

/-- Closing characters of the class `[\)\]]`. -/
def isCloseBr (c : Char) : Bool :=
  c = ')' || c = ']'

/-- Non-greedy `.*?[\)\]]`: chars up to the nearest closing bracket, where `.`
does not match a newline.  Returns the remainder after the closing bracket. -/
def findCloseBr : List Char → Option (List Char)
  | [] => none
  | c :: cs => if isCloseBr c then some cs else if c = '\n' then none
               else findCloseBr cs

/-- Try `\s*[\(\[].*?[\)\]]` anchored at the head of `l`; on success return the
remainder of the string after the match. -/
def matchBrGroup (l : List Char) : Option (List Char) :=
  match l.dropWhile pyWs with
  | [] => none
  | o :: r => if isOpenBr o then findCloseBr r else none

/-- Scanner for `re.sub(r'\s*[\(\[].*?[\)\]]', '', title)`.  The `fuel`
argument only makes the recursion structural: by `matchBrGroup_length` every
step strictly shortens the string, so `fuel = l.length` (as supplied by
`removeBrackets`) never runs out. -/
def rbAux : Nat → List Char → List Char
  | 0, l => l
  | _ + 1, [] => []
  | fuel + 1, c :: cs =>
    match matchBrGroup (c :: cs) with
    | some rest => rbAux fuel rest
    | none => c :: rbAux fuel cs

/-- `re.sub(r'\s*[\(\[].*?[\)\]]', '', title)`: remove every (non-greedy)
bracket group together with the whitespace before it. -/
def removeBrackets (l : List Char) : List Char :=
  rbAux l.length l

/-- Case-insensitive anchored match of the (lower-case) term `t` against the
head of the string; on success return the remainder. -/
def stripMatchCore : List Char → List Char → Option (List Char)
  | [], l => some l
  | _ :: _, [] => none
  | t :: ts, c :: cs => if c.toLower = t then stripMatchCore ts cs else none

/-- `\b` after a match: the following character must not be a word character
(all quality terms end in a word character). -/
def nextNonWord (l : List Char) : Bool :=
  match l with
  | [] => true
  | d :: _ => !pyWordCh d

/-- Scanner for `re.sub(rf'\b{term}\b', '', title, flags=re.IGNORECASE)`.
`prevW` records whether the character before the current position (in the
original string) is a word character; every quality term both starts and ends
with a word character, so a match needs `prevW = false` and a non-word (or
absent) following character, and after a removal the flag becomes `true`. -/
def subTermAux (t : Char) (ts : List Char) : Nat → Bool → List Char → List Char
  | 0, _, l => l
  | _ + 1, _, [] => []
  | fuel + 1, prevW, c :: cs =>
    match stripMatchCore (t :: ts) (c :: cs) with
    | some rest =>
      if !prevW && nextNonWord rest then subTermAux t ts fuel true rest
      else c :: subTermAux t ts fuel (pyWordCh c) cs
    | none => c :: subTermAux t ts fuel (pyWordCh c) cs

/-- One whole-word, case-insensitive `re.sub` pass for a single term.  As with
`rbAux`, the fuel `l.length` is never exhausted: each scan step consumes at
least one character (`stripMatchCore_length`). -/
def subTerm (term : String) (l : List Char) : List Char :=
  match term.data with
  | [] => l
  | t :: ts => subTermAux t ts l.length false l

/-- The `quality_terms` list of `clean_title`, in source order. -/
def qualityTerms : List String :=
  ["bluray", "bdrip", "dvdrip", "webrip", "hdtv", "hdcam",
   "720p", "1080p", "4k", "uhd", "x264", "x265", "hevc",
   "aac", "dts", "ac3", "extended", "unrated", "directors.cut"]

/-- `clean_title` from src/utils/file_utils.py: remove bracket groups, remove
quality terms as whole words (case-insensitive), collapse `[\.\-_]+` runs to a
space, collapse whitespace runs to a space, and strip. -/
def clean_title (s : String) : String :=
  let l1 := removeBrackets s.data
  let l2 := qualityTerms.foldl (fun acc term => subTerm term acc) l1
  let l3 := collapseRuns dotDashUnd ' ' false l2
  let l4 := collapseRuns pyWs ' ' false l3
  String.mk (stripBoth pyWs l4)

/-! ### Directory model and the scanners
(src/utils/file_utils.py lines 101-175, src/core/scanner.py lines 41-121) -/

/-- A directory tree: named files and named directories with children. -/
inductive FSNode where
  | file (name : String)
  | dir (name : String) (children : List FSNode)

def nodeName : FSNode → String
  | .file n => n
  | .dir n _ => n

def isDirNode : FSNode → Bool
  | .file _ => false
  | .dir _ _ => true

mutual

/-- Names of all files below a node (`Path.rglob('*')` restricted to files). -/
def filesOf : FSNode → List String
  | .file n => [n]
  | .dir _ cs => filesOfList cs

def filesOfList : List FSNode → List String
  | [] => []
  | n :: ns => filesOf n ++ filesOfList ns

end

/-- `pathlib` stem/suffix split of a file name: the suffix starts at the last
dot, provided that dot is neither the first nor the last character. -/
def splitName (name : List Char) : List Char × List Char :=
  let rev := name.reverse
  let afterRev := rev.takeWhile (· ≠ '.')
  if afterRev.length = name.length then (name, [])
  else if afterRev.length = 0 then (name, [])
  else
    let stemRev := rev.drop (afterRev.length + 1)
    if stemRev.isEmpty then (name, [])
    else (stemRev.reverse, '.' :: afterRev.reverse)

/-- The `video_extensions` set of `is_video_file`. -/
def videoExts : List String :=
  [".mp4", ".mkv", ".avi", ".mov", ".wmv", ".flv", ".webm",
   ".m4v", ".mpg", ".mpeg", ".3gp", ".ts", ".mts"]

/-- `is_video_file` from src/utils/file_utils.py: lower-cased suffix is in the
recognized video-extension set. -/
def is_video_file (name : String) : Bool :=
  videoExts.contains (pyLowerStr (String.mk (splitName name.data).2))

/-- A scanned media item: the movie dictionaries carry `filename` (the stem),
`title` and `year`; the TV-show dictionaries carry the folder name and `title`
(and no year, modelled as `none`). -/
structure MediaEntry where
  name : String
  title : String
  year : Option Nat
deriving DecidableEq

/-- `scan_movies` from src/utils/file_utils.py: every descendant file with a
video extension is parsed; entries whose cleaned title is empty are dropped. -/
def scan_movies (root : List FSNode) : List MediaEntry :=
  (filesOfList root).filterMap fun n =>
    if is_video_file n then
      let stem := String.mk (splitName n.data).1
      let t := clean_title stem
      if t = "" then none
      else some { name := stem, title := t, year := extract_year_from_filename stem }
    else none

/-- Anchored `season\s*\d+` (case-insensitive) at the head of the string. -/
def seasonAt (l : List Char) : Bool :=
  match stripMatchCore ['s', 'e', 'a', 's', 'o', 'n'] l with
  | none => false
  | some rest =>
    match rest.dropWhile pyWs with
    | [] => false
    | d :: _ => isDigitCh d

/-- `re.search(r'season\s*\d+', name, re.IGNORECASE)` as a Boolean. -/
def seasonSearch : List Char → Bool
  | [] => false
  | c :: cs => seasonAt (c :: cs) || seasonSearch cs

/-- `scan_tv_shows` from src/utils/file_utils.py: a top-level directory with at
least one season-named subdirectory becomes a show entry.  Note that, unlike
`scan_movies`, an empty cleaned title is NOT filtered out. -/
def scan_tv_shows (root : List FSNode) : List MediaEntry :=
  root.filterMap fun node =>
    match node with
    | .file _ => none
    | .dir dname children =>
      let seasons := children.filter fun c => isDirNode c && seasonSearch (nodeName c).data
      if seasons.isEmpty then none
      else some { name := dname, title := clean_title dname, year := none }

/-! ### `MediaScanner.scan_directory` / `_detect_anime` (src/core/scanner.py)

The AniList lookup is an oracle `String → Option Bool`: `some b` is a normal
reply of `is_likely_anime`, `none` is a raised exception (caught by the code
and cached as a `false` verdict).  The memo `_anime_cache` is an association
list keyed by the lower-cased title. -/

def detectAnime (oracle : String → Option Bool) :
    List MediaEntry → List (String × Bool) → List MediaEntry × List (String × Bool)
  | [], cache => ([], cache)
  | item :: rest, cache =>
    let k := pyLowerStr item.title
    match cache.lookup k with
    | some b =>
      let (found, c') := detectAnime oracle rest cache
      (if b then item :: found else found, c')
    | none =>
      match oracle item.title with
      | some b =>
        let (found, c') := detectAnime oracle rest ((k, b) :: cache)
        (if b then item :: found else found, c')
      | none =>
        let (found, c') := detectAnime oracle rest ((k, false) :: cache)
        (found, c')

structure ScanResult where
  movies : List MediaEntry
  tv_shows : List MediaEntry
  anime : List MediaEntry
deriving DecidableEq

/-- `scan_directory` from src/core/scanner.py: scan movies and shows, detect
anime over their concatenation, and (when any anime was found) drop every
movie/show whose lower-cased title equals the lower-cased title of some anime
entry. -/
def scan_directory (root : List FSNode) (oracle : String → Option Bool)
    (cache : List (String × Bool)) (detectFlag : Bool) :
    ScanResult × List (String × Bool) :=
  let movies := scan_movies root
  let tv := scan_tv_shows root
  let (anime, cache') :=
    if detectFlag then detectAnime oracle (movies ++ tv) cache else ([], cache)
  if anime.isEmpty then
    ({ movies := movies, tv_shows := tv, anime := anime }, cache')
  else
    let animeTitles := anime.map fun a => pyLowerStr a.title
    ({ movies := movies.filter fun m => !animeTitles.contains (pyLowerStr m.title),
       tv_shows := tv.filter fun t => !animeTitles.contains (pyLowerStr t.title),
       anime := anime }, cache')

/-! ### `IconManager.batch_set_icons` (src/core/icon_manager.py, lines 184-235)

Each list element is the outcome of the per-item `set_tv_show_icon` /
`set_anime_icon` call: `.ok` means the call returned `True`, `.err` means it
returned `False`, `.raise` means it raised an exception that escaped into the
batch loop's `except` handler. -/

inductive ApplyOutcome where
  | ok
  | err
  | raise
deriving DecidableEq

/-- `(successful, failed, callbackInvocations)` accumulated by the loop.  The
progress callback sits inside the `try` block after the apply call, so it runs
after `.ok` and `.err` items but is skipped when the item raised. -/
def batchCounts : List ApplyOutcome → Nat × Nat × Nat
  | [] => (0, 0, 0)
  | o :: rest =>
    let (s, f, c) := batchCounts rest
    match o with
    | .ok => (s + 1, f, c + 1)
    | .err => (s, f + 1, c + 1)
    | .raise => (s, f + 1, c)

/-- The result dictionary of `batch_set_icons`: it has exactly the keys
`total`, `successful` and `failed` (no `skipped`). -/
structure BatchSummary where
  total : Nat
  successful : Nat
  failed : Nat
deriving DecidableEq

/-- `batch_set_icons`, paired with the number of progress-callback calls. -/
def batch_set_icons (outcomes : List ApplyOutcome) : BatchSummary × Nat :=
  let (s, f, c) := batchCounts outcomes
  ({ total := outcomes.length, successful := s, failed := f }, c)

/-! ### `IconManager.set_tv_show_icon` / `_create_and_set_icon`
(src/core/icon_manager.py, lines 41-151)

External effects are oracles; file writes are modelled as adding the target
path to the cache-file set (overwriting an existing file leaves the set
unchanged), and failing external steps leave the state unchanged. -/

/-- Filesystem/folder state visible to the icon-apply layer. -/
structure IconState where
  /-- Paths existing under the cache directory (posters and icons). -/
  cacheFiles : List String
  /-- `desktop.ini` present in the target folder (`has_custom_icon`). -/
  folderIni : Bool
  /-- Read-only attribute set on the target folder. -/
  folderReadOnly : Bool
  /-- Icon path recorded inside the folder's `desktop.ini`, if any. -/
  iniTarget : Option String
deriving DecidableEq

/-- Outcomes of the external steps of one `_create_and_set_icon` call. -/
structure IconOracles where
  /-- `download_image` result: `some img` or `None`. -/
  download : Option Nat
  /-- `cache_poster` succeeded. -/
  cachePosterOk : Bool
  /-- `create_folder_icon` succeeded. -/
  createIconOk : Bool
  /-- `create_desktop_ini` succeeded. -/
  createIniOk : Bool
deriving DecidableEq

/-- `cache_key = f"{media_type}_{safe_title}"`. -/
def iconCacheKey (mediaType title : String) : String :=
  mediaType ++ "_" ++ get_safe_filename title

/-- `icon_cache_dir / f"{cache_key}.ico"`. -/
def iconPathOf (mediaType title : String) : String :=
  "icons/" ++ iconCacheKey mediaType title ++ ".ico"

/-- `poster_cache_dir / f"{cache_key}.jpg"` (written by `cache_poster`). -/
def posterPathOf (mediaType title : String) : String :=
  "posters/" ++ iconCacheKey mediaType title ++ ".jpg"

/-- Write a file: set-like insert into the cache-file list. -/
def addFile (p : String) (files : List String) : List String :=
  if files.contains p then files else p :: files

/-- Tail of `_create_and_set_icon`: `create_desktop_ini` plus the best-effort
`refresh_folder_icon`.  Returns `(result, state, downloadInvoked)`. -/
def finishIni (st : IconState) (iconPath : String) (o : IconOracles) (dl : Bool) :
    Bool × IconState × Bool :=
  if o.createIniOk then
    (true,
     { st with folderIni := true, folderReadOnly := true, iniTarget := some iconPath },
     dl)
  else (false, st, dl)

/-- `_create_and_set_icon`: reuse a cached icon file when it exists, otherwise
download the poster, cache it and build the icon; then bind the folder to the
icon.  The third component reports whether `download_image` was invoked. -/
def create_and_set_icon (st : IconState) (mediaType title : String)
    (o : IconOracles) : Bool × IconState × Bool :=
  let iconPath := iconPathOf mediaType title
  if st.cacheFiles.contains iconPath then
    finishIni st iconPath o false
  else
    match o.download with
    | none => (false, st, true)
    | some _ =>
      if !o.cachePosterOk then (false, st, true)
      else
        let st1 := { st with cacheFiles := addFile (posterPathOf mediaType title) st.cacheFiles }
        if !o.createIconOk then (false, st1, true)
        else
          let st2 := { st1 with cacheFiles := addFile iconPath st1.cacheFiles }
          finishIni st2 iconPath o true

/-- `set_tv_show_icon`: idempotence guard (`has_custom_icon` and not `force`
short-circuits to `True`), then TMDB poster lookup, then
`_create_and_set_icon` with media type `"tv"`. -/
def set_tv_show_icon (st : IconState) (title : String) (posterUrl : Option String)
    (o : IconOracles) (force : Bool) : Bool × IconState × Bool :=
  if !force && st.folderIni then (true, st, false)
  else
    match posterUrl with
    | none => (false, st, false)
    | some _ => create_and_set_icon st "tv" title o

/-! ### `ThumbnailEmbedder._prepare_thumbnail`
(src/core/thumbnail_embedder.py, lines 107-143) -/

/-- `thumbnail_cache_dir / f"{safe_title}_thumb.jpg"`. -/
def thumbPathOf (title : String) : String :=
  "thumbnails/" ++ get_safe_filename title ++ "_thumb.jpg"

/-- `_prepare_thumbnail`: return the cached thumbnail when its file exists,
otherwise download (`download : Option Nat` is the `download_image` result),
resize and save.  Returns `(path?, files, downloadInvoked)`. -/
def prepare_thumbnail (files : List String) (title : String)
    (download : Option Nat) : Option String × List String × Bool :=
  let p := thumbPathOf title
  if files.contains p then (some p, files, false)
  else
    match download with
    | none => (none, files, true)
    | some _ => (some p, addFile p files, true)

/-! ### `ThumbnailEmbedder._embed_with_ffmpeg`
(src/core/thumbnail_embedder.py, lines 145-213)

`ToolRun` describes the observable behaviour of the external ffmpeg run:
either `subprocess.run` raised `TimeoutExpired` (with the temp output file in
whatever state ffmpeg left it), or the process completed with an exit code and
a final temp-output state (`none` = no output file was produced). -/

inductive ToolRun where
  | timeout (leftover : Option (List Nat))
  | completed (exitCode : Int) (out : Option (List Nat))
deriving DecidableEq

/-- Files surrounding one video during an embed call; contents are byte
lists. -/
structure VideoFS where
  original : List Nat
  temp : Option (List Nat)
  backup : Option (List Nat)
deriving DecidableEq

/-- `_embed_with_ffmpeg`: optional backup copy (never overwriting an existing
backup), run ffmpeg into the sibling temp path, then — only on exit code 0
with an existing output — swap the temp file in for the original.  On
non-zero exit the temp file is unlinked; when `TimeoutExpired` is raised the
handler only logs and returns `False`. -/
def embed_with_ffmpeg (doBackup : Bool) (run : ToolRun) (fs : VideoFS) :
    Bool × VideoFS :=
  let fs1 := if doBackup && fs.backup.isNone
             then { fs with backup := some fs.original } else fs
  match run with
  | .timeout leftover => (false, { fs1 with temp := leftover })
  | .completed code out =>
    let fs2 := { fs1 with temp := out }
    if code ≠ 0 then
      if fs2.temp.isSome then (false, { fs2 with temp := none })
      else (false, fs2)
    else
      match out with
      | some content => (true, { fs2 with original := content, temp := none })
      | none => (false, fs2)

/-! ### `clean_cache` / `clean_icon_cache`
(src/utils/image_utils.py lines 177-211, src/core/icon_manager.py 237-254) -/

/-- An entry of a cache directory, with its age in seconds at sweep time. -/
structure CacheFile where
  name : String
  ageSeconds : Nat
  isFile : Bool
deriving DecidableEq

/-- The glob pattern `"*.jpg"` of `clean_cache`. -/
def jpgGlob (name : String) : Bool :=
  strEndsWith name ".jpg"

/-- `clean_cache`: delete every regular file matching `*.jpg` whose age
exceeds `max_age_days`; return the deletion count and the surviving
entries. -/
def clean_cache (files : List CacheFile) (maxAgeDays : Nat) :
    Nat × List CacheFile :=
  let maxAgeSeconds := maxAgeDays * 24 * 60 * 60
  let doomed := fun f : CacheFile =>
    jpgGlob f.name && f.isFile && decide (f.ageSeconds > maxAgeSeconds)
  ((files.filter doomed).length, files.filter fun f => !doomed f)

/-- `clean_icon_cache`: sweep the poster directory and the icon directory with
`clean_cache` and add the counts. -/
def clean_icon_cache (posterFiles iconFiles : List CacheFile)
    (maxAgeDays : Nat) : Nat × List CacheFile × List CacheFile :=
  let (pDel, pRemain) := clean_cache posterFiles maxAgeDays
  let (iDel, iRemain) := clean_cache iconFiles maxAgeDays
  (pDel + iDel, pRemain, iRemain)

/-! ### `ThumbnailEmbedder.has_embedded_thumbnail`
(src/core/thumbnail_embedder.py, lines 215-247)

`run : Option String` is the probe subprocess: `some stderr` is a completed
run with that diagnostic output, `none` is any raised exception (caught by the
code).  The second component reports whether the subprocess was started. -/

def has_embedded_thumbnail (ffmpegPath : Option String) (videoPath : String)
    (run : Option String) : Bool × Bool :=
  if ffmpegPath.isNone || !is_video_file videoPath then (false, false)
  else
    match run with
    | none => (false, true)
    | some stderr =>
      (containsSub "attached_pic".data (pyLowerStr stderr).data, true)


/-! ### Supporting lemmas

The length lemmas justify the fuel accounting of `rbAux` and `subTermAux`:
every successful anchored match strictly consumes input, so fuel equal to the
string length is never exhausted. -/

theorem findCloseBr_length :
    ∀ l r, findCloseBr l = some r → r.length < l.length := by
  intro l
  induction l with
  | nil => intro r h; simp [findCloseBr] at h
  | cons c cs ih =>
    intro r h
    simp only [findCloseBr] at h
    split at h
    · injection h with h
      subst h
      simp only [List.length_cons]
      omega
    · split at h
      · exact absurd h (by simp)
      · have := ih r h
        simp only [List.length_cons]
        omega

theorem lenDropWhileLe (p : Char → Bool) (l : List Char) :
    (l.dropWhile p).length ≤ l.length := by
  induction l with
  | nil => simp [List.dropWhile]
  | cons c cs ih =>
    simp only [List.dropWhile]
    by_cases h : p c
    · simp [h]; omega
    · simp [h]

theorem matchBrGroup_length :
    ∀ l r, matchBrGroup l = some r → r.length < l.length := by
  intro l r h
  unfold matchBrGroup at h
  rcases hd : l.dropWhile pyWs with _ | ⟨o, rest⟩
  · rw [hd] at h; simp at h
  · rw [hd] at h
    by_cases ho : isOpenBr o
    · simp [ho] at h
      have h1 := findCloseBr_length rest r h
      have h2 : (o :: rest).length ≤ l.length := by
        rw [← hd]; exact lenDropWhileLe pyWs l
      simp only [List.length_cons] at h2
      omega
    · simp [ho] at h

theorem stripMatchCore_length :
    ∀ ts l r, stripMatchCore ts l = some r → r.length ≤ l.length := by
  intro ts
  induction ts with
  | nil => intro l r h; simp [stripMatchCore] at h; simp [h]
  | cons t ts ih =>
    intro l r h
    cases l with
    | nil => simp [stripMatchCore] at h
    | cons c cs =>
      simp only [stripMatchCore] at h
      by_cases hc : c.toLower = t
      · simp [hc] at h
        have := ih cs r h
        simp only [List.length_cons]
        omega
      · simp [hc] at h


/-! ### Batch counting lemmas -/

theorem batchCounts_allOk :
    ∀ l : List ApplyOutcome, (∀ o ∈ l, o = ApplyOutcome.ok) →
      batchCounts l = (l.length, 0, l.length) := by
  intro l
  induction l with
  | nil => intro _; simp [batchCounts]
  | cons o rest ih =>
    intro h
    have ho : o = ApplyOutcome.ok := h o (by simp)
    have hr : batchCounts rest = (rest.length, 0, rest.length) :=
      ih fun x hx => h x (by simp [hx])
    subst ho
    simp [batchCounts, hr]

theorem batchCounts_cons_ok (l : List ApplyOutcome) :
    batchCounts (ApplyOutcome.ok :: l) =
      ((batchCounts l).1 + 1, (batchCounts l).2.1, (batchCounts l).2.2 + 1) :=
  rfl

theorem batchCounts_cons_err (l : List ApplyOutcome) :
    batchCounts (ApplyOutcome.err :: l) =
      ((batchCounts l).1, (batchCounts l).2.1 + 1, (batchCounts l).2.2 + 1) :=
  rfl

theorem batchCounts_cons_raise (l : List ApplyOutcome) :
    batchCounts (ApplyOutcome.raise :: l) =
      ((batchCounts l).1, (batchCounts l).2.1 + 1, (batchCounts l).2.2) :=
  rfl

theorem batchCounts_okFront :
    ∀ (pre rest : List ApplyOutcome), (∀ o ∈ pre, o = ApplyOutcome.ok) →
      batchCounts (pre ++ rest) =
        ((batchCounts rest).1 + pre.length, (batchCounts rest).2.1,
         (batchCounts rest).2.2 + pre.length) := by
  intro pre
  induction pre with
  | nil => intro rest _; simp
  | cons o pre' ih =>
    intro rest h
    have ho : o = ApplyOutcome.ok := h o (by simp)
    have hr := ih rest fun x hx => h x (by simp [hx])
    subst ho
    rw [List.cons_append, batchCounts_cons_ok, hr]
    simp only [List.length_cons, Prod.mk.injEq]
    exact ⟨by omega, trivial, by omega⟩

/-! ### Claim theorems -/

/-- C1 (corrected).  `_embed_with_ffmpeg` failure behaviour: on a non-zero
ffmpeg exit code the call fails, the temp output is deleted and the original
is untouched; on exit 0 with no output file, and on a `TimeoutExpired`, the
call fails and the original is untouched — but a partial temp output left by
a timeout is NOT deleted (the `except` handler only logs), and an
existing-but-empty output on exit 0 is accepted and swapped in, which is what
`spec_C1_counterexample` exhibits against the claim as stated. -/
theorem spec_C1_embed_failure_atomicity :
    ∀ (b : Bool) (fs : VideoFS),
      (∀ (code : Int) (out : Option (List Nat)), code ≠ 0 →
        (embed_with_ffmpeg b (ToolRun.completed code out) fs).1 = false ∧
        (embed_with_ffmpeg b (ToolRun.completed code out) fs).2.original = fs.original ∧
        (embed_with_ffmpeg b (ToolRun.completed code out) fs).2.temp = none) ∧
      ((embed_with_ffmpeg b (ToolRun.completed 0 none) fs).1 = false ∧
        (embed_with_ffmpeg b (ToolRun.completed 0 none) fs).2.original = fs.original) ∧
      (∀ leftover, (embed_with_ffmpeg b (ToolRun.timeout leftover) fs).1 = false ∧
        (embed_with_ffmpeg b (ToolRun.timeout leftover) fs).2.original = fs.original) := by
  intro b fs
  unfold embed_with_ffmpeg
  by_cases hb : (b && fs.backup.isNone) = true
  · simp only [hb, if_true]
    refine ⟨fun code out hc => ?_, by simp, fun leftover => by simp⟩
    simp only [if_pos hc]
    cases out <;> simp
  · simp only [hb, if_false, Bool.false_eq_true]
    refine ⟨fun code out hc => ?_, by simp, fun leftover => by simp⟩
    simp only [if_pos hc]
    cases out <;> simp

/-- C1 witness: the amended failure guarantees at concrete inputs. -/
theorem spec_C1_embed_failure_atomicity_witness :
    (embed_with_ffmpeg true (ToolRun.completed 1 (some [7])) ⟨[1, 2, 3], none, none⟩).1 = false ∧
    (embed_with_ffmpeg true (ToolRun.completed 1 (some [7])) ⟨[1, 2, 3], none, none⟩).2.original = [1, 2, 3] ∧
    (embed_with_ffmpeg true (ToolRun.completed 1 (some [7])) ⟨[1, 2, 3], none, none⟩).2.temp = none :=
  (spec_C1_embed_failure_atomicity true ⟨[1, 2, 3], none, none⟩).1 1 (some [7]) (by decide)

/-- C1 counterexample to the claim as stated: a timeout leaves the partial
temp output on disk (the claim requires it deleted), and an exit-0 run whose
output file exists but is empty is reported as success and replaces the
original (the claim requires failure and an unchanged original). -/
theorem spec_C1_counterexample :
    (embed_with_ffmpeg true (ToolRun.timeout (some [9])) ⟨[1, 2, 3], none, none⟩).2.temp = some [9] ∧
    (embed_with_ffmpeg true (ToolRun.completed 0 (some [])) ⟨[1, 2, 3], none, none⟩).1 = true ∧
    (embed_with_ffmpeg true (ToolRun.completed 0 (some [])) ⟨[1, 2, 3], none, none⟩).2.original = [] := by
  decide

/-- C2 (corrected).  Batch isolation in `batch_set_icons`: with exactly one
failing item among otherwise-successful ones the loop never aborts and
returns `failed = 1`, `successful = N-1`, `total = N`; but the progress
callback fires `N-1` times when the crafted failure RAISES (the callback call
sits after the apply inside the `try` block, so the `except` path skips it),
and `N` times only when the failure merely returns `False`. -/
theorem spec_C2_batch_isolation :
    ∀ (pre post : List ApplyOutcome),
      (∀ o ∈ pre, o = ApplyOutcome.ok) → (∀ o ∈ post, o = ApplyOutcome.ok) →
      (batch_set_icons (pre ++ ApplyOutcome.raise :: post) =
        ({ total := pre.length + post.length + 1,
           successful := pre.length + post.length,
           failed := 1 }, pre.length + post.length)) ∧
      (batch_set_icons (pre ++ ApplyOutcome.err :: post) =
        ({ total := pre.length + post.length + 1,
           successful := pre.length + post.length,
           failed := 1 }, pre.length + post.length + 1)) := by
  intro pre post hpre hpost
  have hpost' := batchCounts_allOk post hpost
  have h1 := batchCounts_okFront pre (ApplyOutcome.raise :: post) hpre
  have h2 := batchCounts_okFront pre (ApplyOutcome.err :: post) hpre
  rw [batchCounts_cons_raise, hpost'] at h1
  rw [batchCounts_cons_err, hpost'] at h2
  constructor
  · simp only [batch_set_icons, h1, List.length_append, List.length_cons]
    simp only [Prod.mk.injEq, BatchSummary.mk.injEq]
    exact ⟨⟨by omega, by omega, trivial⟩, by omega⟩
  · simp only [batch_set_icons, h2, List.length_append, List.length_cons]
    simp only [Prod.mk.injEq, BatchSummary.mk.injEq]
    exact ⟨⟨by omega, by omega, trivial⟩, by omega⟩

/-- C2 witness: a three-item batch whose middle item raises. -/
theorem spec_C2_batch_isolation_witness :
    batch_set_icons [ApplyOutcome.ok, ApplyOutcome.raise, ApplyOutcome.ok] =
      ({ total := 3, successful := 2, failed := 1 }, 2) :=
  ((spec_C2_batch_isolation [ApplyOutcome.ok] [ApplyOutcome.ok]
    (by intro o ho; simpa using ho) (by intro o ho; simpa using ho)).1)

/-- C2 counterexample to the claim as stated: for `N = 1` with the single
item raising, the counts are `failed = 1, successful = 0, total = 1` as
claimed, but the callback fires 0 times, not `N = 1` times. -/
theorem spec_C2_counterexample :
    (batch_set_icons [ApplyOutcome.raise]).1 =
      { total := 1, successful := 0, failed := 1 } ∧
    (batch_set_icons [ApplyOutcome.raise]).2 = 0 := by
  decide

/-- A successful `set_tv_show_icon` call always leaves `desktop.ini` present
in the folder (either it was already there, or `create_desktop_ini` just
wrote it). -/
theorem set_tv_show_icon_success_ini :
    ∀ (st : IconState) (title : String) (pu : Option String) (o : IconOracles)
      (st' : IconState) (d : Bool),
      set_tv_show_icon st title pu o false = (true, st', d) →
      st'.folderIni = true := by
  intro st title pu o st' d h
  simp only [set_tv_show_icon] at h
  by_cases hini : st.folderIni = true
  · simp [hini] at h
    rw [← h.1]
    exact hini
  · simp [hini] at h
    cases hpu : pu with
    | none => rw [hpu] at h; simp at h
    | some u =>
      rw [hpu] at h
      simp only [create_and_set_icon] at h
      by_cases hc : st.cacheFiles.contains (iconPathOf "tv" title) = true
      · rw [if_pos hc] at h
        simp only [finishIni] at h
        by_cases hok : o.createIniOk = true
        · simp [hok] at h
          rw [← h.1]
        · simp [hok] at h
      · rw [if_neg hc] at h
        cases hdl : o.download with
        | none => rw [hdl] at h; simp at h
        | some img =>
          rw [hdl] at h
          by_cases hp : o.cachePosterOk = true
          · simp only [hp, Bool.not_true, Bool.false_eq_true, if_false] at h
            by_cases hi : o.createIconOk = true
            · simp only [hi, Bool.not_true, Bool.false_eq_true, if_false] at h
              simp only [finishIni] at h
              by_cases hok : o.createIniOk = true
              · simp [hok] at h
                rw [← h.1]
              · simp [hok] at h
            · simp [hi] at h
          · simp [hp] at h

/-- C3 (corrected).  Folder-icon idempotence: after any successful apply, a
second apply without `force` is a no-op — it returns plain success `True`,
leaves the state exactly as the first call left it, and downloads nothing.
There is no distinct skipped outcome: the second call's report is the same
`True` a fresh success returns, and `batch_set_icons` counts such an item as
`successful` (its summary has only `total`/`successful`/`failed` keys). -/
theorem spec_C3_second_apply_noop :
    (∀ (st : IconState) (title : String) (pu : Option String) (o : IconOracles)
       (pu2 : Option String) (o2 : IconOracles) (st1 : IconState) (d : Bool),
       set_tv_show_icon st title pu o false = (true, st1, d) →
       set_tv_show_icon st1 title pu2 o2 false = (true, st1, false)) ∧
    batch_set_icons [ApplyOutcome.ok] = ({ total := 1, successful := 1, failed := 0 }, 1) := by
  constructor
  · intro st title pu o pu2 o2 st1 d h
    have hini := set_tv_show_icon_success_ini st title pu o st1 d h
    unfold set_tv_show_icon
    simp [hini]
  · decide

/-- C3 witness: a concrete first apply (fresh folder, all external steps
succeeding) followed by the no-op second apply. -/
theorem spec_C3_second_apply_noop_witness :
    set_tv_show_icon
      ⟨["icons/tv_T.ico", "posters/tv_T.jpg"], true, true, some "icons/tv_T.ico"⟩
      "T" (some "u") ⟨some 1, true, true, true⟩ false =
      (true, ⟨["icons/tv_T.ico", "posters/tv_T.jpg"], true, true, some "icons/tv_T.ico"⟩, false) :=
  (spec_C3_second_apply_noop).1 ⟨[], false, false, none⟩ "T" (some "u")
    ⟨some 1, true, true, true⟩ (some "u") ⟨some 1, true, true, true⟩
    ⟨["icons/tv_T.ico", "posters/tv_T.jpg"], true, true, some "icons/tv_T.ico"⟩
    true (by decide)

/-- C3 counterexample to the claim as stated: the second call on an
already-iconed folder reports the very same value `true` that a fresh
successful apply reports (no distinct `SkippedAlreadyDone` outcome exists in
`set_tv_show_icon`, whose result is a plain boolean), and the folder-icon
batch summary counts that item under `successful` — the claim instead
requires a distinct outcome counted under a separate `skipped` category. -/
theorem spec_C3_counterexample :
    (set_tv_show_icon ⟨["icons/tv_T.ico"], true, true, some "icons/tv_T.ico"⟩
        "T" (some "u") ⟨some 1, true, true, true⟩ false).1 = true ∧
    (set_tv_show_icon ⟨[], false, false, none⟩
        "T" (some "u") ⟨some 1, true, true, true⟩ false).1 = true ∧
    (batch_set_icons [ApplyOutcome.ok]).1.successful = 1 ∧
    (batch_set_icons [ApplyOutcome.ok]).1.failed = 0 := by
  decide

/-- Writing a path always makes it present. -/
theorem contains_addFile (p : String) (fs : List String) :
    (addFile p fs).contains p = true := by
  unfold addFile
  by_cases h : fs.contains p = true
  · rw [if_pos h]
    exact h
  · rw [if_neg h]
    simp [List.contains_cons]

/-- C4 (confirmed).  Artifact-cache round trip.  For `_prepare_thumbnail`:
(1) after any successful call, a repeat call with the same title returns the
same path, leaves the files unchanged and does not invoke the producer
(`download_image`); (2) when the backing file is missing the call is a plain
cache miss — the producer runs and the artifact is regenerated, not an
error.  For `_create_and_set_icon`: (3) when the icon file exists under its
cache key no download happens, and (4) every successful call leaves the icon
file present, so the next call with the same key hits the cache. -/
theorem spec_C4_cache_roundtrip :
    (∀ (files : List String) (title : String) (dl : Option Nat) (p : String)
       (files' : List String) (d : Bool),
       prepare_thumbnail files title dl = (some p, files', d) →
       ∀ dl2, prepare_thumbnail files' title dl2 = (some p, files', false)) ∧
    (∀ (files : List String) (title : String) (img : Nat),
       files.contains (thumbPathOf title) = false →
       prepare_thumbnail files title (some img) =
         (some (thumbPathOf title), addFile (thumbPathOf title) files, true)) ∧
    (∀ (st : IconState) (mt title : String) (o : IconOracles),
       st.cacheFiles.contains (iconPathOf mt title) = true →
       (create_and_set_icon st mt title o).2.2 = false) ∧
    (∀ (st : IconState) (mt title : String) (o : IconOracles)
       (st' : IconState) (d : Bool),
       create_and_set_icon st mt title o = (true, st', d) →
       st'.cacheFiles.contains (iconPathOf mt title) = true) := by
  refine ⟨?_, ?_, ?_, ?_⟩
  · intro files title dl p files' d h dl2
    simp only [prepare_thumbnail] at h ⊢
    by_cases hc : files.contains (thumbPathOf title) = true
    · rw [if_pos hc] at h
      simp only [Prod.mk.injEq] at h
      obtain ⟨hp, hf, _⟩ := h
      injection hp with hp
      rw [← hp, ← hf, if_pos hc]
    · rw [if_neg hc] at h
      cases hdl : dl with
      | none => rw [hdl] at h; simp at h
      | some img =>
        rw [hdl] at h
        simp only [Prod.mk.injEq] at h
        obtain ⟨hp, hf, _⟩ := h
        injection hp with hp
        rw [← hp, ← hf, if_pos (contains_addFile _ _)]
  · intro files title img hc
    simp only [prepare_thumbnail]
    rw [if_neg (by rw [hc]; simp)]
  · intro st mt title o hc
    simp only [create_and_set_icon]
    rw [if_pos hc]
    simp only [finishIni]
    by_cases hok : o.createIniOk = true
    · simp [hok]
    · simp [hok]
  · intro st mt title o st' d h
    simp only [create_and_set_icon] at h
    by_cases hc : st.cacheFiles.contains (iconPathOf mt title) = true
    · rw [if_pos hc] at h
      simp only [finishIni] at h
      by_cases hok : o.createIniOk = true
      · simp [hok] at h
        rw [← h.1]
        exact hc
      · simp [hok] at h
    · rw [if_neg hc] at h
      cases hdl : o.download with
      | none => rw [hdl] at h; simp at h
      | some img =>
        rw [hdl] at h
        by_cases hp : o.cachePosterOk = true
        · simp only [hp, Bool.not_true, Bool.false_eq_true, if_false] at h
          by_cases hi : o.createIconOk = true
          · simp only [hi, Bool.not_true, Bool.false_eq_true, if_false] at h
            simp only [finishIni] at h
            by_cases hok : o.createIniOk = true
            · simp [hok] at h
              rw [← h.1]
              exact contains_addFile _ _
            · simp [hok] at h
          · simp [hi] at h
        · simp [hp] at h

/-- C4 witness: the four cache-round-trip facts at concrete inputs. -/
theorem spec_C4_cache_roundtrip_witness :
    prepare_thumbnail ["thumbnails/T_thumb.jpg"] "T" none =
      (some "thumbnails/T_thumb.jpg", ["thumbnails/T_thumb.jpg"], false) ∧
    prepare_thumbnail [] "T" (some 1) =
      (some (thumbPathOf "T"), addFile (thumbPathOf "T") [], true) ∧
    (create_and_set_icon ⟨["icons/tv_T.ico"], false, false, none⟩ "tv" "T"
      ⟨some 1, true, true, true⟩).2.2 = false ∧
    (⟨["icons/tv_T.ico"], true, true, some "icons/tv_T.ico"⟩ : IconState).cacheFiles.contains
      (iconPathOf "tv" "T") = true :=
  ⟨spec_C4_cache_roundtrip.1 [] "T" (some 1) "thumbnails/T_thumb.jpg"
      ["thumbnails/T_thumb.jpg"] true (by decide) none,
   spec_C4_cache_roundtrip.2.1 [] "T" 1 (by decide),
   spec_C4_cache_roundtrip.2.2.1 ⟨["icons/tv_T.ico"], false, false, none⟩ "tv" "T"
      ⟨some 1, true, true, true⟩ (by decide),
   spec_C4_cache_roundtrip.2.2.2 ⟨["icons/tv_T.ico"], false, false, none⟩ "tv" "T"
      ⟨some 1, true, true, true⟩
      ⟨["icons/tv_T.ico"], true, true, some "icons/tv_T.ico"⟩ false (by decide)⟩

/-- C8 (code_bug).  `clean_icon_cache` sweeps the poster directory and the
icon directory through `clean_cache`, but `clean_cache` hard-codes the glob
`"*.jpg"` while icons are written as `"{cache_key}.ico"` (see
`_create_and_set_icon` and `get_cache_stats`, which globs `"*.ico"` there):
an over-age `.ico` icon is never deleted and is not counted, against both the
claim and the function's own docstring ("Clean old cached icons and
posters").  The second conjunct shows the poster sweep itself works. -/
theorem spec_C8_icon_eviction_misses_icons :
    clean_icon_cache [] [⟨"tv_Show.ico", 40 * 24 * 60 * 60, true⟩] 30 =
      (0, [], [⟨"tv_Show.ico", 40 * 24 * 60 * 60, true⟩]) ∧
    clean_cache [⟨"p.jpg", 40 * 24 * 60 * 60, true⟩] 30 = (1, []) := by
  decide

/-- C10 (confirmed).  `has_embedded_thumbnail` returns `false` without
starting the probe subprocess whenever ffmpeg is unresolved or the path is
not a recognized video file; and when the probe raises, the exception is
caught and `false` is returned. -/
theorem spec_C10_probe_guards :
    ∀ (ffmpegPath : Option String) (videoPath : String) (run : Option String),
      ((ffmpegPath = none ∨ is_video_file videoPath = false) →
        has_embedded_thumbnail ffmpegPath videoPath run = (false, false)) ∧
      (run = none → (has_embedded_thumbnail ffmpegPath videoPath run).1 = false) := by
  intro ff vp run
  constructor
  · intro h
    unfold has_embedded_thumbnail
    have hg : (ff.isNone || !is_video_file vp) = true := by
      rcases h with h | h
      · subst h; simp
      · simp [h]
    rw [if_pos hg]
  · intro h
    subst h
    unfold has_embedded_thumbnail
    by_cases hg : (ff.isNone || !is_video_file vp) = true
    · rw [if_pos hg]
    · rw [if_neg hg]

/-- C10 witness: both guards at concrete inputs. -/
theorem spec_C10_probe_guards_witness :
    has_embedded_thumbnail none "m.mkv" (some "attached_pic") = (false, false) ∧
    has_embedded_thumbnail (some "ffmpeg") "m.txt" (some "attached_pic") = (false, false) ∧
    (has_embedded_thumbnail (some "ffmpeg") "m.mkv" none).1 = false :=
  ⟨(spec_C10_probe_guards none "m.mkv" (some "attached_pic")).1 (Or.inl rfl),
   (spec_C10_probe_guards (some "ffmpeg") "m.txt" (some "attached_pic")).1 (Or.inr (by decide)),
   (spec_C10_probe_guards (some "ffmpeg") "m.mkv" none).2 rfl⟩

/-- Pattern chaining preserves the range check. -/
theorem tryYearPattern_inRange (r next : Option Nat)
    (hn : ∀ y, next = some y → inYearRange y = true) :
    ∀ y, tryYearPattern r next = some y → inYearRange y = true := by
  intro y h
  cases r with
  | none =>
    simp only [tryYearPattern] at h
    exact hn y h
  | some y' =>
    simp only [tryYearPattern] at h
    by_cases hr : inYearRange y' = true
    · rw [if_pos hr] at h
      injection h with h
      rw [← h]
      exact hr
    · rw [if_neg hr] at h
      exact hn y h

/-- C6 (corrected).  Range soundness holds unconditionally: the extractor
never returns a year outside [1900, 2030].  The acceptance order, however, is
weaker than claimed: for each pattern only the leftmost match in the filename
is examined — if its value is out of range, the remaining matches of that
same pattern are skipped and the next pattern is tried (first conjunct of
`spec_C6_counterexample`).  When the leftmost parenthesized match is in
range it is returned. -/
theorem spec_C6_year_range_soundness :
    (∀ (s : String) (y : Nat), extract_year_from_filename s = some y →
      1900 ≤ y ∧ y ≤ 2030) ∧
    (∀ (s : String) (y : Nat),
      searchWrapped (· = '(') (· = ')') s.data = some y → inYearRange y = true →
      extract_year_from_filename s = some y) := by
  constructor
  · intro s y h
    have hr : inYearRange y = true := by
      refine tryYearPattern_inRange _ _ ?_ y h
      refine tryYearPattern_inRange _ _ ?_
      refine tryYearPattern_inRange _ _ ?_
      refine tryYearPattern_inRange _ _ ?_
      refine tryYearPattern_inRange _ _ ?_
      intro y' h'
      exact absurd h' (by simp)
    unfold inYearRange at hr
    simp only [Bool.and_eq_true, decide_eq_true_eq] at hr
    exact hr
  · intro s y h hr
    unfold extract_year_from_filename
    rw [h]
    simp only [tryYearPattern, hr, if_true]

/-- C6 witness: range soundness and leftmost-parenthesized acceptance at a
concrete filename. -/
theorem spec_C6_year_range_soundness_witness :
    (1900 ≤ 1999 ∧ 1999 ≤ 2030) ∧
    extract_year_from_filename "Movie (1999)" = some 1999 :=
  ⟨spec_C6_year_range_soundness.1 "Movie (1999)" 1999
      (spec_C6_year_range_soundness.2 "Movie (1999)" 1999 (by decide) (by decide)),
   spec_C6_year_range_soundness.2 "Movie (1999)" 1999 (by decide) (by decide)⟩

/-- C6 counterexample to the claim as stated: in `"(1000) (1999)"` the first
parenthesized match whose value lies in [1900, 2030] is `(1999)` — the
spec-modelled reading `specFirstYearInRange` returns 1999 — but the code only
examines the leftmost parenthesized match `(1000)`, finds it out of range,
abandons the pattern and returns nothing. -/
theorem spec_C6_counterexample :
    extract_year_from_filename "(1000) (1999)" = none ∧
    specFirstYearInRange "(1000) (1999)" = some 1999 := by
  decide

/-- C9 (confirmed).  After a full scan with anime detection enabled, no
surviving movie or TV-show entry shares a lower-cased title with any anime
entry: the filter in `scan_directory` removes every same-titled item from
both lists, regardless of media kind. -/
theorem spec_C9_anime_title_disjoint :
    ∀ (root : List FSNode) (oracle : String → Option Bool)
      (cache : List (String × Bool)) (x a : MediaEntry),
      (x ∈ ((scan_directory root oracle cache true).1).movies ∨
        x ∈ ((scan_directory root oracle cache true).1).tv_shows) →
      a ∈ ((scan_directory root oracle cache true).1).anime →
      pyLowerStr x.title ≠ pyLowerStr a.title := by
  intro root oracle cache x a hx ha heq
  simp only [scan_directory, if_true] at hx ha
  by_cases hA : (detectAnime oracle (scan_movies root ++ scan_tv_shows root) cache).1.isEmpty = true
  · rw [if_pos hA] at ha
    simp only at ha
    rw [List.isEmpty_iff.mp hA] at ha
    simp at ha
  · rw [if_neg hA] at hx ha
    simp only at hx ha
    have hmem : pyLowerStr a.title ∈
        (detectAnime oracle (scan_movies root ++ scan_tv_shows root) cache).1.map
          (fun e => pyLowerStr e.title) :=
      List.mem_map_of_mem _ ha
    have hcon : ((detectAnime oracle (scan_movies root ++ scan_tv_shows root) cache).1.map
        (fun e => pyLowerStr e.title)).contains (pyLowerStr x.title) = false := by
      rcases hx with hx | hx
      · have := (List.mem_filter.mp hx).2
        simpa using this
      · have := (List.mem_filter.mp hx).2
        simpa using this
    rw [heq] at hcon
    have helem := List.elem_eq_true_of_mem hmem
    rw [List.contains, helem] at hcon
    simp at hcon

/-- C9 witness: a library where a movie file and a show folder both named
"Naruto" are classified as anime, while "Breaking Bad" survives in the
TV-show list. -/
theorem spec_C9_anime_title_disjoint_witness :
    pyLowerStr (MediaEntry.mk "Breaking Bad" "Breaking Bad" none).title ≠
      pyLowerStr (MediaEntry.mk "Naruto" "Naruto" none).title :=
  spec_C9_anime_title_disjoint
    [FSNode.dir "Naruto" [FSNode.dir "Season 1" []],
     FSNode.dir "Breaking Bad" [FSNode.dir "Season 1" []],
     FSNode.file "Naruto.mkv"]
    (fun t => some (t = "Naruto")) []
    (MediaEntry.mk "Breaking Bad" "Breaking Bad" none)
    (MediaEntry.mk "Naruto" "Naruto" none)
    (Or.inr (by decide)) (by decide)

/-! ### Strip / collapse toolkit (for the `get_safe_filename` and
`clean_title` claims) -/

theorem dropWhile_head_not (p : Char → Bool) :
    ∀ (l : List Char) (c : Char) (cs : List Char),
      l.dropWhile p = c :: cs → p c = false := by
  intro l
  induction l with
  | nil => intro c cs h; simp [List.dropWhile] at h
  | cons a as ih =>
    intro c cs h
    rw [List.dropWhile_cons] at h
    by_cases hp : p a = true
    · rw [if_pos hp] at h
      exact ih c cs h
    · rw [if_neg hp] at h
      injection h with h1 _
      rw [← h1]
      exact Bool.eq_false_iff.mpr hp

theorem dropWhile_idem (p : Char → Bool) (l : List Char) :
    (l.dropWhile p).dropWhile p = l.dropWhile p := by
  cases h : l.dropWhile p with
  | nil => simp
  | cons c cs =>
    have hc := dropWhile_head_not p l c cs h
    rw [List.dropWhile_cons, if_neg (by rw [hc]; simp)]

theorem dropTrailing_idem (p : Char → Bool) (l : List Char) :
    dropTrailing p (dropTrailing p l) = dropTrailing p l := by
  unfold dropTrailing
  rw [List.reverse_reverse, dropWhile_idem]

theorem dropTrailing_append (p : Char → Bool) (l : List Char) :
    dropTrailing p l ++ (l.reverse.takeWhile p).reverse = l := by
  unfold dropTrailing
  rw [← List.reverse_append, List.takeWhile_append_dropWhile, List.reverse_reverse]

theorem dropWhile_eq_self_of_split (p : Char → Bool) :
    ∀ (x pre t : List Char), x.dropWhile p = x → x = pre ++ t →
      pre.dropWhile p = pre := by
  intro x pre t hx hsplit
  cases pre with
  | nil => simp
  | cons c cs =>
    have hc : p c = false := by
      apply dropWhile_head_not p x c (cs ++ t)
      rw [hx, hsplit]
      simp
    rw [List.dropWhile_cons, if_neg (by rw [hc]; simp)]

theorem stripBoth_front_stripped (p : Char → Bool) (l : List Char) :
    (stripBoth p l).dropWhile p = stripBoth p l := by
  unfold stripBoth
  exact dropWhile_eq_self_of_split p (l.dropWhile p) _ _
    (dropWhile_idem p l) (dropTrailing_append p (l.dropWhile p)).symm

theorem stripBoth_idem (p : Char → Bool) (l : List Char) :
    stripBoth p (stripBoth p l) = stripBoth p l := by
  have h1 := stripBoth_front_stripped p l
  show dropTrailing p ((stripBoth p l).dropWhile p) = stripBoth p l
  rw [h1]
  show dropTrailing p (dropTrailing p (l.dropWhile p)) = stripBoth p l
  rw [dropTrailing_idem]
  rfl

theorem mem_dropWhile_sub (p : Char → Bool) (l : List Char) (c : Char) :
    c ∈ l.dropWhile p → c ∈ l := by
  intro h
  have hsplit := @List.takeWhile_append_dropWhile _ p l
  rw [← hsplit]
  exact List.mem_append_right _ h

theorem mem_dropTrailing_sub (p : Char → Bool) (l : List Char) (c : Char) :
    c ∈ dropTrailing p l → c ∈ l := by
  intro h
  unfold dropTrailing at h
  rw [List.mem_reverse] at h
  have := mem_dropWhile_sub p l.reverse c h
  rw [List.mem_reverse] at this
  exact this

theorem mem_stripBoth_sub (p : Char → Bool) (l : List Char) (c : Char) :
    c ∈ stripBoth p l → c ∈ l := by
  intro h
  exact mem_dropWhile_sub p l c (mem_dropTrailing_sub p (l.dropWhile p) c h)

theorem collapseRuns_mem (p : Char → Bool) (rep : Char) :
    ∀ (l : List Char) (b : Bool) (c : Char),
      c ∈ collapseRuns p rep b l → c = rep ∨ (c ∈ l ∧ p c = false) := by
  intro l
  induction l with
  | nil => intro b c h; simp [collapseRuns] at h
  | cons d ds ih =>
    intro b c h
    simp only [collapseRuns] at h
    by_cases hp : p d = true
    · rw [if_pos hp] at h
      cases b with
      | true =>
        rcases ih true c h with h' | ⟨hm, hc⟩
        · exact Or.inl h'
        · exact Or.inr ⟨List.mem_cons_of_mem d hm, hc⟩
      | false =>
        rcases List.mem_cons.mp h with h' | h'
        · exact Or.inl h'
        · rcases ih true c h' with h'' | ⟨hm, hc⟩
          · exact Or.inl h''
          · exact Or.inr ⟨List.mem_cons_of_mem d hm, hc⟩
    · rw [if_neg hp] at h
      rcases List.mem_cons.mp h with h' | h'
      · exact Or.inr ⟨by rw [h']; simp, by rw [h']; exact Bool.eq_false_iff.mpr hp⟩
      · rcases ih false c h' with h'' | ⟨hm, hc⟩
        · exact Or.inl h''
        · exact Or.inr ⟨List.mem_cons_of_mem d hm, hc⟩

theorem collapseRuns_id (p : Char → Bool) (rep : Char) :
    ∀ l : List Char, (∀ c ∈ l, p c = false) → collapseRuns p rep false l = l := by
  intro l
  induction l with
  | nil => intro _; simp [collapseRuns]
  | cons d ds ih =>
    intro h
    have hd : p d = false := h d (by simp)
    simp only [collapseRuns]
    rw [if_neg (by rw [hd]; simp)]
    rw [ih fun c hc => h c (List.mem_cons_of_mem d hc)]

theorem collapseRuns_length_le (p : Char → Bool) (rep : Char) :
    ∀ (l : List Char) (b : Bool), (collapseRuns p rep b l).length ≤ l.length := by
  intro l
  induction l with
  | nil => intro b; simp [collapseRuns]
  | cons d ds ih =>
    intro b
    simp only [collapseRuns]
    by_cases hp : p d = true
    · rw [if_pos hp]
      split
      · have := ih true
        simp only [List.length_cons]
        omega
      · have := ih true
        simp only [List.length_cons]
        omega
    · rw [if_neg hp]
      have := ih false
      simp only [List.length_cons]
      omega

theorem dropTrailing_length_le (p : Char → Bool) (l : List Char) :
    (dropTrailing p l).length ≤ l.length := by
  unfold dropTrailing
  rw [List.length_reverse]
  have := lenDropWhileLe p l.reverse
  rw [List.length_reverse] at this
  exact this

theorem stripBoth_length_le (p : Char → Bool) (l : List Char) :
    (stripBoth p l).length ≤ l.length := by
  unfold stripBoth
  exact le_trans (dropTrailing_length_le p (l.dropWhile p)) (lenDropWhileLe p l)

theorem safeSub_not_bad (c : Char) : badFsChar (safeSub c) = false := by
  unfold safeSub
  by_cases h : badFsChar c = true
  · rw [if_pos h]
    decide
  · rw [if_neg h]
    exact Bool.eq_false_iff.mpr h

theorem map_safeSub_id :
    ∀ l : List Char, (∀ c ∈ l, badFsChar c = false) → l.map safeSub = l := by
  intro l
  induction l with
  | nil => intro _; simp
  | cons c cs ih =>
    intro h
    simp only [List.map_cons]
    rw [ih fun d hd => h d (List.mem_cons_of_mem c hd)]
    have hc : safeSub c = c := by
      unfold safeSub
      rw [if_neg (by rw [h c (by simp)]; simp)]
    rw [hc]

/-- Unfolded form of `safeFilenameChars`. -/
theorem safeFilenameChars_def (l : List Char) :
    safeFilenameChars l =
      if (stripBoth dotUnd (collapseRuns pyWs '_' false (l.map safeSub))).length > 100
      then (stripBoth dotUnd (collapseRuns pyWs '_' false (l.map safeSub))).take 100
      else stripBoth dotUnd (collapseRuns pyWs '_' false (l.map safeSub)) :=
  rfl

/-- List-level idempotence of the safe-filename sanitizer when no truncation
happens. -/
theorem safeFilenameChars_idem (l : List Char) (hlen : l.length ≤ 100) :
    safeFilenameChars (safeFilenameChars l) = safeFilenameChars l := by
  have hBlen : (collapseRuns pyWs '_' false (l.map safeSub)).length ≤ l.length := by
    have h1 := collapseRuns_length_le pyWs '_' (l.map safeSub) false
    rw [List.length_map] at h1
    exact h1
  have hClen :
      (stripBoth dotUnd (collapseRuns pyWs '_' false (l.map safeSub))).length ≤ 100 :=
    le_trans (le_trans (stripBoth_length_le dotUnd _) hBlen) hlen
  have h1 : safeFilenameChars l =
      stripBoth dotUnd (collapseRuns pyWs '_' false (l.map safeSub)) := by
    rw [safeFilenameChars_def, if_neg (by omega)]
  set C := stripBoth dotUnd (collapseRuns pyWs '_' false (l.map safeSub)) with hC
  have hmemC : ∀ c ∈ C, c = '_' ∨ (c ∈ l.map safeSub ∧ pyWs c = false) := by
    intro c hc
    exact collapseRuns_mem pyWs '_' (l.map safeSub) false c
      (mem_stripBoth_sub dotUnd _ c (hC ▸ hc))
  have hnobad : ∀ c ∈ C, badFsChar c = false := by
    intro c hc
    rcases hmemC c hc with h' | ⟨hm, _⟩
    · rw [h']
      decide
    · rcases List.mem_map.mp hm with ⟨d, _, hd⟩
      rw [← hd]
      exact safeSub_not_bad d
  have hnows : ∀ c ∈ C, pyWs c = false := by
    intro c hc
    rcases hmemC c hc with h' | ⟨_, hw⟩
    · rw [h']
      decide
    · exact hw
  rw [h1]
  rw [safeFilenameChars_def C, map_safeSub_id C hnobad, collapseRuns_id pyWs '_' C hnows]
  have hCC : stripBoth dotUnd C = C := by
    rw [hC]
    exact stripBoth_idem dotUnd _
  rw [hCC, if_neg (by omega)]

/-- C5 (corrected).  `get_safe_filename` is idempotent on every title of at
most 100 characters (whenever no truncation occurs).  It is NOT idempotent in
general: truncation happens after the strip, so cutting at 100 characters can
expose a trailing `'.'`/`'_'` that a second application strips —
`spec_C5_counterexample` exhibits this with a 101-character title. -/
theorem spec_C5_safe_key_idempotent :
    ∀ s : String, s.data.length ≤ 100 →
      get_safe_filename (get_safe_filename s) = get_safe_filename s := by
  intro s hlen
  show String.mk (safeFilenameChars (safeFilenameChars s.data)) =
    String.mk (safeFilenameChars s.data)
  rw [safeFilenameChars_idem s.data hlen]

/-- C5 witness: idempotence at a concrete short title. -/
theorem spec_C5_safe_key_idempotent_witness :
    ("Movie: X?".data.length ≤ 100) ∧
    get_safe_filename (get_safe_filename "Movie: X?") = get_safe_filename "Movie: X?" :=
  ⟨by decide, spec_C5_safe_key_idempotent "Movie: X?" (by decide)⟩

/-- C5 counterexample to the claim as stated: for the 101-character title
`'a' * 99 ++ "_b"` one application yields `'a' * 99 ++ "_"` (the strip runs
before the truncation), and a second application strips the exposed trailing
underscore, returning a different string. -/
theorem spec_C5_counterexample :
    get_safe_filename (get_safe_filename
        (String.mk (List.replicate 99 'a' ++ ['_', 'b']))) ≠
      get_safe_filename (String.mk (List.replicate 99 'a' ++ ['_', 'b'])) := by
  decide

/-- Data of a literally-constructed string. -/
theorem mk_data (l : List Char) : (String.mk l).data = l :=
  rfl

/-- Unfolded form of `clean_title`. -/
theorem clean_title_def (s : String) :
    clean_title s =
      String.mk (stripBoth pyWs
        (collapseRuns pyWs ' ' false
          (collapseRuns dotDashUnd ' ' false
            (qualityTerms.foldl (fun acc term => subTerm term acc)
              (removeBrackets s.data))))) :=
  rfl

/-- C7 (corrected).  `clean_title` always returns a trimmed string (its last
step is `.strip()`), but that string may be empty — there is no fall-back to
the original input (`spec_C7_counterexample`).  Movie candidates with an
empty cleaned title are dropped by `scan_movies`; show-folder candidates are
NOT filtered: `scan_tv_shows` keeps an entry whose cleaned title is empty,
as the third conjunct shows on a season-bearing folder named `"(2020)"`. -/
theorem spec_C7_trimmed_and_drop :
    (∀ s : String, stripBoth pyWs (clean_title s).data = (clean_title s).data) ∧
    (∀ (root : List FSNode) (m : MediaEntry), m ∈ scan_movies root → m.title ≠ "") ∧
    (scan_tv_shows [FSNode.dir "(2020)" [FSNode.dir "Season 1" []]] =
      [{ name := "(2020)", title := "", year := none }]) := by
  refine ⟨?_, ?_, by decide⟩
  · intro s
    rw [clean_title_def, mk_data]
    exact stripBoth_idem pyWs _
  · intro root m hm
    simp only [scan_movies] at hm
    rw [List.mem_filterMap] at hm
    obtain ⟨n, _, hn⟩ := hm
    generalize String.mk (splitName n.data).1 = stem at hn
    generalize clean_title stem = t at hn
    generalize extract_year_from_filename stem = y at hn
    generalize is_video_file n = v at hn
    cases v with
    | false => simp at hn
    | true =>
      rw [if_pos rfl] at hn
      by_cases ht : t = ""
      · rw [if_pos ht] at hn
        exact absurd hn (by simp)
      · rw [if_neg ht] at hn
        injection hn with hn
        rw [← hn]
        exact ht

/-- C7 witness: the trim fact at a concrete title and the movie-drop fact at
a concrete library. -/
theorem spec_C7_trimmed_and_drop_witness :
    stripBoth pyWs (clean_title " The Matrix ").data = (clean_title " The Matrix ").data ∧
    (MediaEntry.mk "Naruto" "Naruto" none).title ≠ "" :=
  ⟨spec_C7_trimmed_and_drop.1 " The Matrix ",
   spec_C7_trimmed_and_drop.2.1 [FSNode.file "Naruto.mkv"]
     (MediaEntry.mk "Naruto" "Naruto" none) (by decide)⟩

/-- C7 counterexample to the claim as stated: `clean_title "720p"` is the
empty string — neither non-empty nor equal to the original input, so there
is no "return the original when stripping empties the title" fall-back. -/
theorem spec_C7_counterexample :
    ¬ (clean_title "720p" ≠ "" ∨ clean_title "720p" = "720p") := by
  decide

end AutoFolderIcon
